import Mathlib

/-!
Verification development for the PyChunkedGraph edit engine and app handlers.

The development shallowly embeds the code under
`src/pychunkedgraph/backend/graphoperation.py`,
`src/pychunkedgraph/app/segmentation/common.py` and
`src/pychunkedgraph/app/app_utils.py`.
Collaborators that live outside those files (the `ChunkedGraph` store client,
`chunkedgraph_edits`, `RootLock`, the graph API used by the app layer, the
message bus client) are represented by opaque function fields of a graph-handle
structure; where a claim depends on their behaviour the definition is modelled
from the specification and says so in its doc comment.

Stateful calls (lock acquisition, bulk writes, message publishes, undo
invocations) are modelled as an explicit event trace returned next to the
result, and Python exceptions become `Except` errors.
-/

namespace PyChunkedGraph

/-- 64-bit node ids are modelled as naturals; no arithmetic overflowing 64 bits
is performed on them by the embedded code. -/
abbrev NodeId := Nat

/-- Integer chunk/world coordinates (x, y, z). -/
abbrev Coord := Int × Int × Int

/-- The typed failures raised by the embedded code
(`chunkedgraph_exceptions`), plus `keyError` for a Python `KeyError` raised by
an unconditional dictionary lookup. -/
inductive GraphError
  | preconditionError (msg : String)
  | postconditionError (msg : String)
  | lockingError
  | keyError
  deriving DecidableEq, Repr

/-- The error message of the sink/source overlap precondition
(graphoperation.py:50). -/
def overlapMsg : String := "One or more supervoxel exists as both, sink and source."

/-- The layer-check error message (graphoperation.py:57, 64), abbreviated:
the source interpolates the offending id and layer into an f-string. -/
def layerMsg : String := "Supervoxel expected, but got a higher layer node."

/-- The single-root precondition message (graphoperation.py:285, 404). -/
def sameObjectMsg : String := "All supervoxel must belong to the same object. Already split?"

/-- The empty-min-cut postcondition message (graphoperation.py:423). -/
def mincutEmptyMsg : String := "Mincut could not find any edges to remove - weird!"

/-- The undecodable-log-record message (graphoperation.py:115). -/
def noEdgesMsg : String := "Log record contains neither added nor removed edges."

/-- The long-range merge rejection message (common.py:381-383). -/
def chebyshevMsg : String :=
  "Chebyshev distance between merge points exceeded allowed maximum (3 chunks)."

/-- One pending row mutation as produced by `cg.mutate_row`: the row key, a
marker telling whether this is the operation-log row, and the timestamp the
mutation is stamped with. The cell payload is not represented; no claim
depends on it. -/
structure Mutation where
  rowKey : Nat
  isLog : Bool
  timestamp : Nat
  deriving DecidableEq, Repr

/-- A held root lock as produced by `RootLock.__enter__`: the operation id
minted for the edit and the root ids actually locked. -/
structure Lock where
  operationId : Nat
  lockedRootIds : List NodeId
  deriving DecidableEq, Repr

/-- Abstract interface of the `ChunkedGraph` collaborators used by
`graphoperation.py`. `chunkedgraph.py`, `chunkedgraph_edits.py` and
`root_lock.py` are not under src/, so their computations are opaque parameters:
`getRoot` is the per-node `get_roots` at the current time, `tryLock` is
`RootLock` acquisition (`none` models a `LockingError` after the bounded
retries), `readConsolidatedLockTimestamp` is
`cg.read_consolidated_lock_timestamp`, `runMulticut` is `cg._run_multicut`,
and `addEdgesResult` / `removeEdgesResult` give the ids and hierarchy row keys
computed by `cg_edits.add_edges` / `cg_edits.remove_edges` for a given
operation id and atomic edge list. `bulkWriteOk` tells whether the conditional
`bulk_write` retains the locks and succeeds. -/
structure ChunkedGraph where
  getRoot : NodeId → NodeId
  getChunkLayer : NodeId → Nat
  tryLock : List NodeId → Option Lock
  readConsolidatedLockTimestamp : List NodeId → Nat → Nat
  runMulticut : List NodeId → List NodeId → List Coord → List Coord → Option Coord → List (NodeId × NodeId)
  addEdgesResult : Nat → List (NodeId × NodeId) → List NodeId × List NodeId × List Nat
  removeEdgesResult : Nat → List (NodeId × NodeId) → List NodeId × List NodeId × List Nat
  bulkWriteOk : Bool

/-- `np.unique`: sort ascending and drop duplicates. -/
def npUnique (l : List Nat) : List Nat :=
  (List.insertionSort (· ≤ ·) l).dedup

/-- `MergeOperation` object state after `__init__`
(graphoperation.py:127-170). Edge affinities are float32 values that are only
carried, never computed with; they are represented by an opaque `Nat` index. -/
structure MergeOperation where
  userId : String
  addedEdges : List (NodeId × NodeId)
  sourceCoords : Option (List Coord)
  sinkCoords : Option (List Coord)
  affinities : Option (List Nat)
  deriving DecidableEq, Repr

/-- `SplitOperation` object state after `__init__` (graphoperation.py:239-277). -/
structure SplitOperation where
  userId : String
  removedEdges : List (NodeId × NodeId)
  sourceCoords : Option (List Coord)
  sinkCoords : Option (List Coord)
  deriving DecidableEq, Repr

/-- `MulticutOperation` object state after `__init__`
(graphoperation.py:349-396). The constructor sets `removed_edges = None`
("Calculated from coordinates and IDs"), so the field is always `none` on a
freshly constructed object. -/
structure MulticutOperation where
  userId : String
  sourceIds : List NodeId
  sinkIds : List NodeId
  sourceCoords : List Coord
  sinkCoords : List Coord
  bboxOffset : Option Coord
  removedEdges : Option (List (NodeId × NodeId))
  deriving DecidableEq, Repr

/-- The validation performed by `GraphEditOperation.__init__`
(graphoperation.py:47-65): when both id lists are supplied, first reject any
supervoxel occurring as both sink and source
(`np.any(np.in1d(self.sink_ids, self.source_ids))`), then reject any source or
sink whose chunk layer is not 1. The layer error message abbreviates the
source's f-string (which interpolates the offending id and layer). The
constructor performs no store reads or writes. -/
def graphEditValidate (cg : ChunkedGraph) (sourceIds sinkIds : Option (List NodeId)) :
    Except GraphError Unit :=
  match sourceIds, sinkIds with
  | some src, some snk =>
    if snk.any (fun s => src.contains s) then
      .error (.preconditionError overlapMsg)
    else
      match src.find? (fun i => cg.getChunkLayer i != 1) with
      | some _ => .error (.preconditionError layerMsg)
      | none =>
        match snk.find? (fun i => cg.getChunkLayer i != 1) with
        | some _ => .error (.preconditionError layerMsg)
        | none => .ok ()
  | _, _ => .ok ()

/-- `MergeOperation.__init__` (graphoperation.py:130-170): the source column of
`added_edges` becomes `source_ids`, the sink column `sink_ids`, and the shared
`GraphEditOperation.__init__` validation runs on them. -/
def MergeOperation.create (cg : ChunkedGraph) (userId : String)
    (addedEdges : List (NodeId × NodeId)) (sourceCoords sinkCoords : Option (List Coord))
    (affinities : Option (List Nat)) : Except GraphError MergeOperation :=
  match graphEditValidate cg (some (addedEdges.map Prod.fst)) (some (addedEdges.map Prod.snd)) with
  | .error e => .error e
  | .ok _ =>
    .ok { userId := userId, addedEdges := addedEdges, sourceCoords := sourceCoords,
          sinkCoords := sinkCoords, affinities := affinities }

/-- `SplitOperation.__init__` (graphoperation.py:242-277). -/
def SplitOperation.create (cg : ChunkedGraph) (userId : String)
    (removedEdges : List (NodeId × NodeId)) (sourceCoords sinkCoords : Option (List Coord)) :
    Except GraphError SplitOperation :=
  match graphEditValidate cg (some (removedEdges.map Prod.fst)) (some (removedEdges.map Prod.snd)) with
  | .error e => .error e
  | .ok _ =>
    .ok { userId := userId, removedEdges := removedEdges, sourceCoords := sourceCoords,
          sinkCoords := sinkCoords }

/-- `MulticutOperation.__init__` (graphoperation.py:352-396): stores the id
lists and coordinates, sets `removed_edges = None`, and runs the shared
validation. -/
def MulticutOperation.create (cg : ChunkedGraph) (userId : String)
    (sourceIds sinkIds : List NodeId) (sourceCoords sinkCoords : List Coord)
    (bboxOffset : Option Coord) : Except GraphError MulticutOperation :=
  match graphEditValidate cg (some sourceIds) (some sinkIds) with
  | .error e => .error e
  | .ok _ =>
    .ok { userId := userId, sourceIds := sourceIds, sinkIds := sinkIds,
          sourceCoords := sourceCoords, sinkCoords := sinkCoords,
          bboxOffset := bboxOffset, removedEdges := none }

/-- Observable store interactions of an `apply` call. -/
inductive EditEvent
  | lockAcquired (lockedRootIds : List NodeId) (operationId : Nat)
  | bulkWrite (rows : List Mutation) (lockedRootIds : List NodeId) (operationId : Nat)
  deriving DecidableEq, Repr

/-- The operation-log row produced by `create_log_record`
(graphoperation.py:209-236, 321-346, 454-480): a mutation on the row keyed by
`serialize_uint64(operation_id)` stamped with the given timestamp. The logged
columns themselves are not represented. -/
def logRow (operationId : Nat) (timestamp : Nat) : Mutation :=
  { rowKey := operationId, isLog := true, timestamp := timestamp }

/-- Modelled from the spec: `chunkedgraph_edits.add_edges` is code of this
repository that is not under src/. Per spec section 4.5 steps 5-7 and section
4.6 it computes new roots, new level-2 ids and the hierarchy row mutations,
and stamps every hierarchy mutation with the `time_stamp` it is given. The
computed ids and row keys are opaque fields of the graph handle; only the
stamping is fixed here. -/
def add_edges (cg : ChunkedGraph) (operationId : Nat) (atomicEdges : List (NodeId × NodeId))
    (timeStamp : Nat) : List NodeId × List NodeId × List Mutation :=
  let r := cg.addEdgesResult operationId atomicEdges
  (r.1, r.2.1, r.2.2.map (fun k => { rowKey := k, isLog := false, timestamp := timeStamp }))

/-- Modelled from the spec: `chunkedgraph_edits.remove_edges` is code of this
repository that is not under src/; as for `add_edges`, every hierarchy
mutation it returns is stamped with the `time_stamp` it is given. -/
def remove_edges (cg : ChunkedGraph) (operationId : Nat) (atomicEdges : List (NodeId × NodeId))
    (timeStamp : Nat) : List NodeId × List NodeId × List Mutation :=
  let r := cg.removeEdgesResult operationId atomicEdges
  (r.1, r.2.1, r.2.2.map (fun k => { rowKey := k, isLog := false, timestamp := timeStamp }))

/-- `MergeOperation.apply` (graphoperation.py:172-207): resolve the roots of
all edge endpoints (`np.unique(self.cg.get_roots(self.added_edges.ravel()))`),
enter the `RootLock`, read the consolidated lock timestamp for the locked
roots, run `cg_edits.add_edges` stamped with that timestamp, prepend the log
row ("Put log row first!") and `bulk_write` conditioned on the locks. The
returned trace records the lock acquisition and the bulk-write call. -/
def MergeOperation.apply (cg : ChunkedGraph) (op : MergeOperation) :
    List EditEvent × Except GraphError (List NodeId × List NodeId) :=
  let rootIds := npUnique ((op.addedEdges.flatMap (fun e => [e.1, e.2])).map cg.getRoot)
  match cg.tryLock rootIds with
  | none => ([], .error .lockingError)
  | some lock =>
    let timestamp := cg.readConsolidatedLockTimestamp lock.lockedRootIds lock.operationId
    let r := add_edges cg lock.operationId op.addedEdges timestamp
    let rows := logRow lock.operationId timestamp :: r.2.2
    ([EditEvent.lockAcquired lock.lockedRootIds lock.operationId,
      EditEvent.bulkWrite rows lock.lockedRootIds lock.operationId],
     if cg.bulkWriteOk then .ok (r.1, r.2.1) else .error .lockingError)

/-- `source_and_sink_ids` of `SplitOperation.apply` (graphoperation.py:280):
the flattened concatenation of `source_ids` and `sink_ids`, which the
constructor set to the two columns of `removed_edges`. -/
def SplitOperation.endpointIds (op : SplitOperation) : List NodeId :=
  op.removedEdges.map Prod.fst ++ op.removedEdges.map Prod.snd

/-- The locked phase of `SplitOperation.apply` (graphoperation.py:288-319),
entered after the single-root precondition passed. -/
def SplitOperation.applyLocked (cg : ChunkedGraph) (op : SplitOperation) :
    List EditEvent × Except GraphError (List NodeId × List NodeId) :=
  let rootIds := npUnique (op.endpointIds.map cg.getRoot)
  match cg.tryLock rootIds with
  | none => ([], .error .lockingError)
  | some lock =>
    let timestamp := cg.readConsolidatedLockTimestamp lock.lockedRootIds lock.operationId
    let r := remove_edges cg lock.operationId op.removedEdges timestamp
    let rows := logRow lock.operationId timestamp :: r.2.2
    ([EditEvent.lockAcquired lock.lockedRootIds lock.operationId,
      EditEvent.bulkWrite rows lock.lockedRootIds lock.operationId],
     if cg.bulkWriteOk then .ok (r.1, r.2.1) else .error .lockingError)

/-- `SplitOperation.apply` (graphoperation.py:279-319): raise
`PreconditionError` when the endpoints resolve to more than one root, before
any lock is taken; otherwise proceed to the locked phase. -/
def SplitOperation.apply (cg : ChunkedGraph) (op : SplitOperation) :
    List EditEvent × Except GraphError (List NodeId × List NodeId) :=
  let rootIds := npUnique (op.endpointIds.map cg.getRoot)
  if 1 < rootIds.length then
    ([], .error (.preconditionError sameObjectMsg))
  else
    SplitOperation.applyLocked cg op

/-- `source_and_sink_ids` of `MulticutOperation.apply` (graphoperation.py:399). -/
def MulticutOperation.endpointIds (op : MulticutOperation) : List NodeId :=
  op.sourceIds ++ op.sinkIds

/-- The locked phase of `MulticutOperation.apply` (graphoperation.py:407-452):
read the consolidated lock timestamp, run the min-cut, raise
`PostconditionError` when it returns no edges (before any log row is created
and before `bulk_write`), otherwise remove the computed edges, prepend the log
row and `bulk_write`. -/
def MulticutOperation.applyLocked (cg : ChunkedGraph) (op : MulticutOperation) :
    List EditEvent × Except GraphError (List NodeId × List NodeId) :=
  let rootIds := npUnique (op.endpointIds.map cg.getRoot)
  match cg.tryLock rootIds with
  | none => ([], .error .lockingError)
  | some lock =>
    let timestamp := cg.readConsolidatedLockTimestamp lock.lockedRootIds lock.operationId
    let removedEdges :=
      cg.runMulticut op.sourceIds op.sinkIds op.sourceCoords op.sinkCoords op.bboxOffset
    if removedEdges.isEmpty then
      ([EditEvent.lockAcquired lock.lockedRootIds lock.operationId],
       .error (.postconditionError mincutEmptyMsg))
    else
      let r := remove_edges cg lock.operationId removedEdges timestamp
      let rows := logRow lock.operationId timestamp :: r.2.2
      ([EditEvent.lockAcquired lock.lockedRootIds lock.operationId,
        EditEvent.bulkWrite rows lock.lockedRootIds lock.operationId],
       if cg.bulkWriteOk then .ok (r.1, r.2.1) else .error .lockingError)

/-- `MulticutOperation.apply` (graphoperation.py:398-452): the single-root
precondition, then the locked phase. -/
def MulticutOperation.apply (cg : ChunkedGraph) (op : MulticutOperation) :
    List EditEvent × Except GraphError (List NodeId × List NodeId) :=
  let rootIds := npUnique (op.endpointIds.map cg.getRoot)
  if 1 < rootIds.length then
    ([], .error (.preconditionError sameObjectMsg))
  else
    MulticutOperation.applyLocked cg op

/-! ### `GraphEditOperation.from_log_record` (graphoperation.py:67-116) -/

/-- A log record as passed to `from_log_record`. The function reads `UserID`,
`SourceID`, `SinkID`, `SourceCoordinate` and `SinkCoordinate` unconditionally
(graphoperation.py:74-78), so those are total fields; `AddedEdge`,
`Affinity`, `RemovedEdge` and `BoundingBoxOffset` are looked up conditionally
and are optional. -/
structure LogRecordData where
  userId : String
  sourceIds : List NodeId
  sinkIds : List NodeId
  sourceCoords : List Coord
  sinkCoords : List Coord
  addedEdge : Option (List (NodeId × NodeId))
  affinity : Option (List Nat)
  removedEdge : Option (List (NodeId × NodeId))
  boundingBoxOffset : Option Coord
  deriving DecidableEq, Repr

/-- The operation object decoded from a log record. -/
inductive DecodedOperation
  | merge (op : MergeOperation)
  | split (op : SplitOperation)
  | multicut (op : MulticutOperation)
  deriving DecidableEq, Repr

/-- `GraphEditOperation.from_log_record` (graphoperation.py:67-116): if the
record has the `AddedEdge` column, read `Affinity` (an unconditional
dictionary lookup — a record without `Affinity` raises `KeyError`) and build
a `MergeOperation`; otherwise, if it has `RemovedEdge`, build a
`SplitOperation` from the logged removed edges when `multicut_as_split` is
set or `BoundingBoxOffset` is absent, and otherwise a `MulticutOperation`
from the ids, coordinates and bounding-box offset (the logged removed edges
are not passed on); otherwise raise `PreconditionError`. Each constructor
runs the `GraphEditOperation.__init__` validation. -/
def fromLogRecord (cg : ChunkedGraph) (rec : LogRecordData) (multicutAsSplit : Bool) :
    Except GraphError DecodedOperation :=
  match rec.addedEdge with
  | some addedEdges =>
    match rec.affinity with
    | some affinities =>
      (MergeOperation.create cg rec.userId addedEdges (some rec.sourceCoords)
        (some rec.sinkCoords) (some affinities)).map DecodedOperation.merge
    | none => .error .keyError
  | none =>
    match rec.removedEdge with
    | some removedEdges =>
      if multicutAsSplit || rec.boundingBoxOffset.isNone then
        (SplitOperation.create cg rec.userId removedEdges (some rec.sourceCoords)
          (some rec.sinkCoords)).map DecodedOperation.split
      else
        (MulticutOperation.create cg rec.userId rec.sourceIds rec.sinkIds rec.sourceCoords
          rec.sinkCoords rec.boundingBoxOffset).map DecodedOperation.multicut
    | none => .error (.preconditionError noEdgesMsg)

/-! ## App layer: `src/pychunkedgraph/app/segmentation/common.py`

The handlers use the `pychunkedgraph.graph` API, which is not under src/; its
edit entry points (`cg.add_edges`, `cg.remove_edges`, `cg.undo_operation`,
`cg.redo_operation`), the supervoxel lookup
(`app_utils.handle_supervoxel_id_lookup`, also absent from src/) and the log
reader (`cg.client.read_log_entries`) are opaque fields of `AppGraph`.
Division of world coordinates by `cg.segmentation_resolution` is a
floating-point rescaling that is absorbed into the opaque `svLookup` field.
-/

/-- The `ret` object of the graph API's edit entry points:
`new_root_ids` (`None` on failure) and `new_lvl2_ids`. -/
structure OperationResult where
  newRootIds : Option (List NodeId)
  newLvl2Ids : List NodeId
  deriving DecidableEq, Repr

/-- One parsed operation-log entry as returned by
`cg.client.read_log_entries` and consumed by `all_user_operations`
(common.py:582-652): the author, the timestamp, the optional `Status` column
and the optional undo/redo back-pointers. -/
structure LogEntry where
  userId : String
  timestamp : Nat
  status : Option Nat
  undoOperationId : Option Nat
  redoOperationId : Option Nat
  deriving DecidableEq, Repr

/-- `OperationLogs.StatusCodes.SUCCESS.value` (the attributes module is not
under src/; the spec fixes `status` to SUCCESS or FAILED). -/
def statusSuccess : Nat := 0

/-- Abstract graph handle for the app handlers. `logEntries` is the
association list behind the dictionary returned by
`cg.client.read_log_entries(start_time=...)`. -/
structure AppGraph where
  svLookup : Coord → NodeId → NodeId
  getChunkCoordinates : NodeId → Coord
  addEdges : String → NodeId × NodeId → Bool → Except GraphError OperationResult
  removeEdges : String → List NodeId → List NodeId → Bool → Except GraphError OperationResult
  undoOperation : String → Nat → Except GraphError OperationResult
  redoOperation : String → Nat → Except GraphError OperationResult
  logEntries : List (Nat × LogEntry)

/-- App-level failures: `BadRequest`, `InternalServerError`, a Python
`TypeError` raised when a call's arguments do not bind to the callee's
signature, or a typed graph error the handler does not catch. -/
inductive AppError
  | badRequest (msg : String)
  | internalServerError
  | typeError
  | unhandled (e : GraphError)
  deriving DecidableEq, Repr

/-- Observable side effects of an app handler. -/
inductive AppEvent
  | published (exchange : String) (tableId : String) (payload : List Nat)
  | undoApplied (userId : String) (operationId : Nat)
  | redoApplied (userId : String) (operationId : Nat)
  deriving DecidableEq, Repr

/-- Little-endian byte decomposition of one uint64, as `np.uint64.tobytes`
produces on the (little-endian) deployment platforms. -/
def u64Bytes (n : Nat) : List Nat :=
  [n % 256, n / 2 ^ 8 % 256, n / 2 ^ 16 % 256, n / 2 ^ 24 % 256,
   n / 2 ^ 32 % 256, n / 2 ^ 40 % 256, n / 2 ^ 48 % 256, n / 2 ^ 56 % 256]

/-- `np.array(new_lvl2_ids, dtype=np.uint64).tobytes()`: the contiguous uint64
byte buffer of the id list. -/
def payloadBytes (ids : List NodeId) : List Nat :=
  ids.flatMap u64Bytes

/-- `publish_edit` (common.py:338-348). Modelled from the spec: the
`MessagingClient` is an external fire-and-forget sink ("Message-bus
publication of edited L2 IDs (fire-and-forget sink)", "delivery failures do
not fail the edit"), so the publish is an event that does not raise. The
`is_priority` argument is accepted and, as in the source, unused. -/
def publish_edit (exchange tableId : String) (newLvl2Ids : List NodeId) (isPriority : Bool) :
    AppEvent :=
  AppEvent.published exchange tableId (payloadBytes newLvl2Ids)

/-! ### `app_utils.get_cg` and its call sites (C9) -/

/-- The parameter list of `app_utils.get_cg` (app_utils.py:77): a single
positional parameter `table_id` and no keyword-only or variadic parameters. -/
def getCgSignatureParams : List String := ["table_id"]

/-- A Python call shape: how many positional arguments are passed and which
keyword arguments. -/
structure PyCallShape where
  positionalArgs : Nat
  keywordArgs : List String
  deriving DecidableEq, Repr

/-- The call `app_utils.get_cg(table_id, skip_cache=True)` made by
`handle_merge` (common.py:366). -/
def handleMergeGetCgCall : PyCallShape :=
  { positionalArgs := 1, keywordArgs := ["skip_cache"] }

/-- The call `app_utils.get_cg(table_id, skip_cache=True)` made by
`handle_split` (common.py:427). -/
def handleSplitGetCgCall : PyCallShape :=
  { positionalArgs := 1, keywordArgs := ["skip_cache"] }

/-- Python call binding for a signature without defaults beyond position:
the call raises `TypeError` unless every positional argument has a parameter
slot and every keyword argument names a parameter. -/
def callBindsOk (params : List String) (c : PyCallShape) : Bool :=
  c.positionalArgs ≤ params.length && c.keywordArgs.all (fun k => params.contains k)

/-- Evaluation of a Python call against `get_cg`'s signature: when the
arguments do not bind, Python raises `TypeError` at the call site, which the
handlers do not catch. -/
def getCgBind (c : PyCallShape) : Except AppError Unit :=
  if callBindsOk getCgSignatureParams c then .ok () else .error .typeError

/-- The long-range-merge guard of `handle_merge` (common.py:375-383):
`np.any(np.abs(chunk_coord_delta) > 3)` on the componentwise difference of
the two endpoint chunk coordinates. -/
def chunkDeltaExceeds (c0 c1 : Coord) : Bool :=
  3 < (c0.1 - c1.1).natAbs || 3 < (c0.2.1 - c1.2.1).natAbs || 3 < (c0.2.2 - c1.2.2).natAbs

/-- Chebyshev distance between two chunk coordinates, used to state the claim. -/
def chebyshevDist (c0 c1 : Coord) : Nat :=
  max ((c0.1 - c1.1).natAbs) (max ((c0.2.1 - c1.2.1).natAbs) ((c0.2.2 - c1.2.2).natAbs))

/-- The part of `handle_merge` (common.py:385-409) that runs after the
distance guard passed: call `cg.add_edges`, mapping `LockingError` to
`InternalServerError` and `PreconditionError` to `BadRequest`; fail with
`InternalServerError` when `ret.new_root_ids is None`; publish the new
level-2 ids when there are any; return `ret`. -/
def mergeAfterDistanceCheck (cg : AppGraph) (exchange tableId userId : String)
    (sv0 sv1 : NodeId) (isPriority allowSameSegmentMerge : Bool) :
    List AppEvent × Except AppError OperationResult :=
  match cg.addEdges userId (sv0, sv1) allowSameSegmentMerge with
  | .error .lockingError => ([], .error .internalServerError)
  | .error (.preconditionError m) => ([], .error (.badRequest m))
  | .error e => ([], .error (.unhandled e))
  | .ok ret =>
    match ret.newRootIds with
    | none => ([], .error .internalServerError)
    | some _ =>
      if 0 < ret.newLvl2Ids.length then
        ([publish_edit exchange tableId ret.newLvl2Ids isPriority], .ok ret)
      else
        ([], .ok ret)

/-- The body of `handle_merge` downstream of the graph-handle lookup
(common.py:367-409): look up the two endpoint supervoxels from the request's
(id, coordinate) pairs, reject long-range merges with `BadRequest` before
applying any edit, then proceed. Under `get_cg`'s current signature this code
is unreachable (see `handle_merge`). -/
def handleMergeBody (cg : AppGraph) (exchange tableId userId : String)
    (node0 node1 : NodeId × Coord) (isPriority allowSameSegmentMerge : Bool) :
    List AppEvent × Except AppError OperationResult :=
  let sv0 := cg.svLookup node0.2 node0.1
  let sv1 := cg.svLookup node1.2 node1.1
  if chunkDeltaExceeds (cg.getChunkCoordinates sv0) (cg.getChunkCoordinates sv1) then
    ([], .error (.badRequest chebyshevMsg))
  else
    mergeAfterDistanceCheck cg exchange tableId userId sv0 sv1 isPriority allowSameSegmentMerge

/-- `handle_merge` (common.py:354-409): the handler first calls
`app_utils.get_cg(table_id, skip_cache=True)` (common.py:366). `get_cg`
(app_utils.py:77) accepts only `table_id`, so the keyword argument does not
bind and the call raises `TypeError`, which the handler does not catch; only
if the call bound would the body run. -/
def handle_merge (cg : AppGraph) (exchange tableId userId : String)
    (node0 node1 : NodeId × Coord) (isPriority allowSameSegmentMerge : Bool) :
    List AppEvent × Except AppError OperationResult :=
  match getCgBind handleMergeGetCgCall with
  | .error e => ([], .error e)
  | .ok _ =>
    handleMergeBody cg exchange tableId userId node0 node1 isPriority allowSameSegmentMerge

/-- The body of `handle_split` downstream of the graph-handle lookup
(common.py:428-475): look up the source and sink supervoxels, call
`cg.remove_edges`, map `LockingError` to `InternalServerError` and
`PreconditionError` to `BadRequest`, fail with `InternalServerError` when
`ret.new_root_ids is None`, publish the new level-2 ids when there are any,
and return `ret`. The source then sink iteration with the ident mask
selecting each group back out is modelled as the two per-group lookups.
Under `get_cg`'s current signature this code is unreachable (see
`handle_split`). -/
def handleSplitBody (cg : AppGraph) (exchange tableId userId : String)
    (sources sinks : List (NodeId × Coord)) (isPriority mincut : Bool) :
    List AppEvent × Except AppError OperationResult :=
  let sourceSvs := sources.map (fun p => cg.svLookup p.2 p.1)
  let sinkSvs := sinks.map (fun p => cg.svLookup p.2 p.1)
  match cg.removeEdges userId sourceSvs sinkSvs mincut with
  | .error .lockingError => ([], .error .internalServerError)
  | .error (.preconditionError m) => ([], .error (.badRequest m))
  | .error e => ([], .error (.unhandled e))
  | .ok ret =>
    match ret.newRootIds with
    | none => ([], .error .internalServerError)
    | some _ =>
      if 0 < ret.newLvl2Ids.length then
        ([publish_edit exchange tableId ret.newLvl2Ids isPriority], .ok ret)
      else
        ([], .ok ret)

/-- `handle_split` (common.py:415-475): the handler first calls
`app_utils.get_cg(table_id, skip_cache=True)` (common.py:427). As for
`handle_merge`, the keyword argument does not bind to `get_cg`'s signature
(app_utils.py:77) and the call raises `TypeError`, which the handler does not
catch; only if the call bound would the body run. -/
def handle_split (cg : AppGraph) (exchange tableId userId : String)
    (sources sinks : List (NodeId × Coord)) (isPriority mincut : Bool) :
    List AppEvent × Except AppError OperationResult :=
  match getCgBind handleSplitGetCgCall with
  | .error e => ([], .error e)
  | .ok _ =>
    handleSplitBody cg exchange tableId userId sources sinks isPriority mincut

/-- `handle_undo` (common.py:481-508): call `cg.undo_operation`, mapping
`LockingError` to `InternalServerError` and `PreconditionError` or
`PostconditionError` to `BadRequest`; publish the new level-2 ids when there
are any; return `ret`. The trace records the undo invocation. -/
def handle_undo (cg : AppGraph) (exchange tableId userId : String) (operationId : Nat)
    (isPriority : Bool) : List AppEvent × Except AppError OperationResult :=
  match cg.undoOperation userId operationId with
  | .error .lockingError => ([AppEvent.undoApplied userId operationId], .error .internalServerError)
  | .error (.preconditionError m) =>
    ([AppEvent.undoApplied userId operationId], .error (.badRequest m))
  | .error (.postconditionError m) =>
    ([AppEvent.undoApplied userId operationId], .error (.badRequest m))
  | .error e => ([AppEvent.undoApplied userId operationId], .error (.unhandled e))
  | .ok ret =>
    if 0 < ret.newLvl2Ids.length then
      ([AppEvent.undoApplied userId operationId,
        publish_edit exchange tableId ret.newLvl2Ids isPriority], .ok ret)
    else
      ([AppEvent.undoApplied userId operationId], .ok ret)

/-- `handle_redo` (common.py:514-541), symmetric to `handle_undo`. -/
def handle_redo (cg : AppGraph) (exchange tableId userId : String) (operationId : Nat)
    (isPriority : Bool) : List AppEvent × Except AppError OperationResult :=
  match cg.redoOperation userId operationId with
  | .error .lockingError => ([AppEvent.redoApplied userId operationId], .error .internalServerError)
  | .error (.preconditionError m) =>
    ([AppEvent.redoApplied userId operationId], .error (.badRequest m))
  | .error (.postconditionError m) =>
    ([AppEvent.redoApplied userId operationId], .error (.badRequest m))
  | .error e => ([AppEvent.redoApplied userId operationId], .error (.unhandled e))
  | .ok ret =>
    if 0 < ret.newLvl2Ids.length then
      ([AppEvent.redoApplied userId operationId,
        publish_edit exchange tableId ret.newLvl2Ids isPriority], .ok ret)
    else
      ([AppEvent.redoApplied userId operationId], .ok ret)

/-! ### `all_user_operations` (common.py:582-652) -/

/-- `should_check` (common.py:615-618): the entry has no `Status` column or
its status is SUCCESS. -/
def shouldCheck (e : LogEntry) : Bool :=
  e.status.isNone || e.status == some statusSuccess

/-- One step of the undone-set replay (common.py:620-629): an undo entry
appends its target (`np.append`), a redo entry deletes every occurrence of
its target (`np.delete(..., np.argwhere(...))`). -/
def replayStep (acc : List Nat) (e : LogEntry) : List Nat :=
  if shouldCheck e then
    let acc1 :=
      match e.undoOperationId with
      | some u => acc ++ [u]
      | none => acc
    match e.redoOperationId with
    | some r => acc1.filter (fun x => x ≠ r)
    | none => acc1
  else
    acc

/-- The log keys sorted ascending (`np.sort(list(log_rows.keys()))`),
carrying their entries. -/
def sortById (log : List (Nat × LogEntry)) : List (Nat × LogEntry) :=
  List.insertionSort (fun a b => a.1 ≤ b.1) log

/-- The `undone_ids` array after the first loop of `all_user_operations`:
replay every log entry in ascending id order. -/
def undoneIds (log : List (Nat × LogEntry)) : List Nat :=
  (sortById log).foldl (fun acc p => replayStep acc p.2) []

/-- The `(valid_entry_ids, timestamp_list)` pairs of the first loop: entries
authored by the target user, in ascending id order. -/
def validEntries (log : List (Nat × LogEntry)) (targetUserId : String) :
    List (Nat × LogEntry) :=
  (sortById log).filter (fun p => p.2.userId == targetUserId)

/-- `all_user_operations` (common.py:582-652) as the returned
`(operation_id, timestamp)` pairs. With `include_undone` false, the second
loop drops entries that are themselves undo or redo records and entries in
the replayed `undone_ids`. -/
def all_user_operations (log : List (Nat × LogEntry)) (targetUserId : String)
    (includeUndone : Bool) : List (Nat × Nat) :=
  let valid := validEntries log targetUserId
  if includeUndone then
    valid.map (fun p => (p.1, p.2.timestamp))
  else
    let undone := undoneIds log
    (valid.filter (fun p =>
        p.2.undoOperationId.isNone && p.2.redoOperationId.isNone && !(undone.contains p.1))).map
      (fun p => (p.1, p.2.timestamp))

/-! ### `handle_rollback` (common.py:547-576) -/

/-- The user operations sorted by timestamp descending
(`operations.sort(key=lambda op: op[1], reverse=True)`). -/
def sortByTimestampDesc (ops : List (Nat × Nat)) : List (Nat × Nat) :=
  List.insertionSort (fun a b => b.2 ≤ a.2) ops

/-- The loop body of `handle_rollback`: undo each operation in order, mapping
`LockingError` to `InternalServerError` and `PreconditionError` or
`PostconditionError` to `BadRequest` (aborting the loop), and publish the new
level-2 ids of each successful undo. Returns the events emitted and the
error, if any. `is_priority` is undefined in the source's scope; per the
spec's note it is "treated as a per-call parameter threaded through", hence
the `isPriority` argument (modelled from the spec). -/
def rollbackLoop (cg : AppGraph) (exchange tableId targetUserId : String) (isPriority : Bool) :
    List (Nat × Nat) → List AppEvent × Option AppError
  | [] => ([], none)
  | (opId, _) :: rest =>
    match cg.undoOperation targetUserId opId with
    | .error .lockingError => ([AppEvent.undoApplied targetUserId opId], some .internalServerError)
    | .error (.preconditionError m) =>
      ([AppEvent.undoApplied targetUserId opId], some (.badRequest m))
    | .error (.postconditionError m) =>
      ([AppEvent.undoApplied targetUserId opId], some (.badRequest m))
    | .error e => ([AppEvent.undoApplied targetUserId opId], some (.unhandled e))
    | .ok ret =>
      let pubs :=
        if 0 < ret.newLvl2Ids.length then
          [publish_edit exchange tableId ret.newLvl2Ids isPriority]
        else
          []
      let r := rollbackLoop cg exchange tableId targetUserId isPriority rest
      (AppEvent.undoApplied targetUserId opId :: (pubs ++ r.1), r.2)

/-- `handle_rollback` (common.py:547-576): collect the target user's
still-effective operations, sort them by timestamp descending, undo each in
that order publishing any new level-2 ids, and return the operation list. -/
def handle_rollback (cg : AppGraph) (exchange tableId targetUserId : String)
    (isPriority : Bool) : List AppEvent × Except AppError (List (Nat × Nat)) :=
  let userOps := all_user_operations cg.logEntries targetUserId false
  let operations := sortByTimestampDesc userOps
  let r := rollbackLoop cg exchange tableId targetUserId isPriority operations
  match r.2 with
  | some e => (r.1, .error e)
  | none => (r.1, .ok userOps)

/-! ## Helper lemmas -/

theorem mem_npUnique {x : Nat} {l : List Nat} : x ∈ npUnique l ↔ x ∈ l := by
  simp [npUnique, List.mem_dedup]

theorem nodup_npUnique (l : List Nat) : (npUnique l).Nodup :=
  List.nodup_dedup _

theorem one_lt_length_of_mem_ne {α : Type} {l : List α} {a b : α}
    (ha : a ∈ l) (hb : b ∈ l) (hne : a ≠ b) : 1 < l.length := by
  match l with
  | [] => cases ha
  | [c] =>
    simp only [List.mem_singleton] at ha hb
    exact absurd (ha.trans hb.symm) hne
  | c :: d :: t =>
    simp only [List.length_cons]
    omega

theorem length_le_one_of_nodup_const {α : Type} {l : List α} {r : α}
    (hn : l.Nodup) (h : ∀ x ∈ l, x = r) : l.length ≤ 1 := by
  match l with
  | [] => simp
  | [a] => simp
  | a :: b :: t =>
    exfalso
    have ha := h a (by simp)
    have hb := h b (by simp)
    have hab : a = b := ha.trans hb.symm
    rw [List.nodup_cons] at hn
    exact hn.1 (by simp [hab])

theorem one_lt_npUnique_length (f : Nat → Nat) {ids : List Nat} {x y : Nat}
    (hx : x ∈ ids) (hy : y ∈ ids) (hne : f x ≠ f y) :
    1 < (npUnique (ids.map f)).length :=
  one_lt_length_of_mem_ne (mem_npUnique.mpr (List.mem_map_of_mem f hx))
    (mem_npUnique.mpr (List.mem_map_of_mem f hy)) hne

theorem npUnique_length_le_one (f : Nat → Nat) {ids : List Nat} {r : Nat}
    (h : ∀ x ∈ ids, f x = r) : (npUnique (ids.map f)).length ≤ 1 := by
  apply length_le_one_of_nodup_const (nodup_npUnique _)
  intro x hx
  rw [mem_npUnique] at hx
  rcases List.mem_map.mp hx with ⟨y, hy, rfl⟩
  exact h y hy

/-! ## Claims about `graphoperation.py` -/

/-- C10: constructing any edit operation that supplies both source and sink
supervoxel ids raises `PreconditionError` whenever some supervoxel id occurs
in both lists. The check is the shared `GraphEditOperation.__init__`
validation; through `MergeOperation.__init__` the source and sink lists are
the two columns of `added_edges`, so an added edge with equal endpoints is
rejected too. The constructors are pure in the embedding, as in the source:
no root lookup, lock or store write happens before or during the check. -/
theorem constructor_rejects_source_sink_overlap (cg : ChunkedGraph) :
    (∀ src snk : List NodeId, (∃ x, x ∈ snk ∧ x ∈ src) →
      graphEditValidate cg (some src) (some snk) = .error (.preconditionError overlapMsg)) ∧
    (∀ userId edges sourceCoords sinkCoords affinities,
      (∃ x, x ∈ edges.map Prod.fst ∧ x ∈ edges.map Prod.snd) →
      MergeOperation.create cg userId edges sourceCoords sinkCoords affinities =
        .error (.preconditionError overlapMsg)) ∧
    (∀ userId a edges sourceCoords sinkCoords affinities, (a, a) ∈ edges →
      MergeOperation.create cg userId edges sourceCoords sinkCoords affinities =
        .error (.preconditionError overlapMsg)) ∧
    (∀ userId edges sourceCoords sinkCoords,
      (∃ x, x ∈ edges.map Prod.fst ∧ x ∈ edges.map Prod.snd) →
      SplitOperation.create cg userId edges sourceCoords sinkCoords =
        .error (.preconditionError overlapMsg)) ∧
    (∀ userId sourceIds sinkIds sourceCoords sinkCoords bboxOffset,
      (∃ x, x ∈ sinkIds ∧ x ∈ sourceIds) →
      MulticutOperation.create cg userId sourceIds sinkIds sourceCoords sinkCoords bboxOffset =
        .error (.preconditionError overlapMsg)) := by
  have hval : ∀ src snk : List NodeId, (∃ x, x ∈ snk ∧ x ∈ src) →
      graphEditValidate cg (some src) (some snk) = .error (.preconditionError overlapMsg) := by
    rintro src snk ⟨x, hxs, hxr⟩
    have hany : snk.any (fun s => src.contains s) = true := by
      rw [List.any_eq_true]
      exact ⟨x, hxs, by simpa [List.contains] using hxr⟩
    simp only [graphEditValidate]
    rw [if_pos hany]
  refine ⟨hval, ?_, ?_, ?_, ?_⟩
  · rintro userId edges sourceCoords sinkCoords affinities ⟨x, hf, hs⟩
    simp [MergeOperation.create, hval _ _ ⟨x, hs, hf⟩]
  · intro userId a edges sourceCoords sinkCoords affinities ha
    simp [MergeOperation.create,
      hval _ _ ⟨a, List.mem_map_of_mem Prod.snd ha, List.mem_map_of_mem Prod.fst ha⟩]
  · rintro userId edges sourceCoords sinkCoords ⟨x, hf, hs⟩
    simp [SplitOperation.create, hval _ _ ⟨x, hs, hf⟩]
  · rintro userId sourceIds sinkIds sourceCoords sinkCoords bboxOffset ⟨x, hs, hf⟩
    simp [MulticutOperation.create, hval _ _ ⟨x, hs, hf⟩]

/-- C10 witness: concrete overlapping inputs for each conjunct, with all
chunk layers equal to 1 so only the overlap check can fire. -/
def cgW : ChunkedGraph where
  getRoot := fun _ => 100
  getChunkLayer := fun _ => 1
  tryLock := fun roots => some { operationId := 7, lockedRootIds := roots }
  readConsolidatedLockTimestamp := fun _ _ => 42
  runMulticut := fun _ _ _ _ _ => [(1, 2)]
  addEdgesResult := fun _ _ => ([200], [300], [10, 11])
  removeEdgesResult := fun _ _ => ([201, 202], [301], [12])
  bulkWriteOk := true

theorem constructor_rejects_source_sink_overlap_witness :
    graphEditValidate cgW (some [1, 2]) (some [2, 3]) = .error (.preconditionError overlapMsg) ∧
    MergeOperation.create cgW "u" [(1, 1)] none none none =
      .error (.preconditionError overlapMsg) ∧
    SplitOperation.create cgW "u" [(1, 2), (2, 9)] none none =
      .error (.preconditionError overlapMsg) ∧
    MulticutOperation.create cgW "u" [1, 2] [2] [] [] none =
      .error (.preconditionError overlapMsg) := by
  have h := constructor_rejects_source_sink_overlap cgW
  exact ⟨h.1 [1, 2] [2, 3] ⟨2, by decide, by decide⟩,
    h.2.2.1 "u" 1 [(1, 1)] none none none (by decide),
    h.2.2.2.1 "u" [(1, 2), (2, 9)] none none ⟨2, by decide, by decide⟩,
    h.2.2.2.2 "u" [1, 2] [2] [] [] none ⟨2, by decide, by decide⟩⟩

/-- C2: `SplitOperation.apply` and `MulticutOperation.apply` raise
`PreconditionError` before any root lock is taken (empty trace, so nothing is
written) when the supplied source and sink supervoxels resolve to more than
one root; when they all share one root the check passes and the locked phase
is entered. -/
theorem split_multicut_single_root_precondition (cg : ChunkedGraph) :
    (∀ op : SplitOperation,
      (∃ x, x ∈ op.endpointIds ∧ ∃ y, y ∈ op.endpointIds ∧ cg.getRoot x ≠ cg.getRoot y) →
      SplitOperation.apply cg op = ([], .error (.preconditionError sameObjectMsg))) ∧
    (∀ op : SplitOperation, (∃ r, ∀ x ∈ op.endpointIds, cg.getRoot x = r) →
      SplitOperation.apply cg op = SplitOperation.applyLocked cg op) ∧
    (∀ op : MulticutOperation,
      (∃ x, x ∈ op.endpointIds ∧ ∃ y, y ∈ op.endpointIds ∧ cg.getRoot x ≠ cg.getRoot y) →
      MulticutOperation.apply cg op = ([], .error (.preconditionError sameObjectMsg))) ∧
    (∀ op : MulticutOperation, (∃ r, ∀ x ∈ op.endpointIds, cg.getRoot x = r) →
      MulticutOperation.apply cg op = MulticutOperation.applyLocked cg op) := by
  refine ⟨?_, ?_, ?_, ?_⟩
  · rintro op ⟨x, hx, y, hy, hne⟩
    have h := one_lt_npUnique_length cg.getRoot hx hy hne
    simp [SplitOperation.apply, h]
  · rintro op ⟨r, hr⟩
    have h := npUnique_length_le_one cg.getRoot hr
    simp [SplitOperation.apply, Nat.not_lt.mpr h]
  · rintro op ⟨x, hx, y, hy, hne⟩
    have h := one_lt_npUnique_length cg.getRoot hx hy hne
    simp [MulticutOperation.apply, h]
  · rintro op ⟨r, hr⟩
    have h := npUnique_length_le_one cg.getRoot hr
    simp [MulticutOperation.apply, Nat.not_lt.mpr h]

/-- A graph handle on which every supervoxel is its own root, so endpoints on
different supervoxels resolve to different roots. -/
def cgId : ChunkedGraph :=
  { cgW with getRoot := fun n => n }

def splitOpW : SplitOperation :=
  { userId := "u", removedEdges := [(1, 2)], sourceCoords := none, sinkCoords := none }

def multicutOpW : MulticutOperation :=
  { userId := "u", sourceIds := [1], sinkIds := [2], sourceCoords := [(0, 0, 0)],
    sinkCoords := [(1, 0, 0)], bboxOffset := none, removedEdges := none }

theorem split_multicut_single_root_precondition_witness :
    SplitOperation.apply cgId splitOpW = ([], .error (.preconditionError sameObjectMsg)) ∧
    SplitOperation.apply cgW splitOpW = SplitOperation.applyLocked cgW splitOpW ∧
    MulticutOperation.apply cgId multicutOpW =
      ([], .error (.preconditionError sameObjectMsg)) ∧
    MulticutOperation.apply cgW multicutOpW = MulticutOperation.applyLocked cgW multicutOpW := by
  refine ⟨?_, ?_, ?_, ?_⟩
  · exact (split_multicut_single_root_precondition cgId).1 splitOpW
      ⟨1, by decide, 2, by decide, by decide⟩
  · exact (split_multicut_single_root_precondition cgW).2.1 splitOpW ⟨100, by decide⟩
  · exact (split_multicut_single_root_precondition cgId).2.2.1 multicutOpW
      ⟨1, by decide, 2, by decide, by decide⟩
  · exact (split_multicut_single_root_precondition cgW).2.2.2 multicutOpW ⟨100, by decide⟩

/-- C4: when the min-cut returns no edges, `MulticutOperation.apply` raises
`PostconditionError` inside the root lock: the trace holds only the lock
acquisition, so no log row is created and no `bulk_write` happens — nothing is
written. -/
theorem multicut_empty_mincut_postcondition (cg : ChunkedGraph) (op : MulticutOperation)
    (lock : Lock)
    (hroots : ¬ 1 < (npUnique (op.endpointIds.map cg.getRoot)).length)
    (hlock : cg.tryLock (npUnique (op.endpointIds.map cg.getRoot)) = some lock)
    (hempty :
      cg.runMulticut op.sourceIds op.sinkIds op.sourceCoords op.sinkCoords op.bboxOffset = []) :
    MulticutOperation.apply cg op =
      ([EditEvent.lockAcquired lock.lockedRootIds lock.operationId],
       .error (.postconditionError mincutEmptyMsg)) := by
  simp [MulticutOperation.apply, MulticutOperation.applyLocked, hroots, hlock, hempty]

/-- A graph handle whose min-cut finds nothing to remove. -/
def cgEmptyCut : ChunkedGraph :=
  { cgW with runMulticut := fun _ _ _ _ _ => [] }

theorem multicut_empty_mincut_postcondition_witness :
    MulticutOperation.apply cgEmptyCut multicutOpW =
      ([EditEvent.lockAcquired [100] 7], .error (.postconditionError mincutEmptyMsg)) :=
  multicut_empty_mincut_postcondition cgEmptyCut multicutOpW
    { operationId := 7, lockedRootIds := [100] } (by decide) (by decide) (by decide)

/-- C1: whenever `MergeOperation.apply`, `SplitOperation.apply` or
`MulticutOperation.apply` reaches the write step, the mutation list passed to
`bulk_write` has the operation-log row as its first element, and the log row
and every hierarchy mutation are stamped with the single consolidated lock
timestamp read back for the locked roots and the lock's operation id. -/
theorem edit_apply_log_row_first_and_stamped (cg : ChunkedGraph) :
    (∀ (op : MergeOperation) (rows : List Mutation) (locked : List NodeId) (oid : Nat),
      EditEvent.bulkWrite rows locked oid ∈ (MergeOperation.apply cg op).1 →
      (∃ hierarchyRows, rows =
        logRow oid (cg.readConsolidatedLockTimestamp locked oid) :: hierarchyRows) ∧
      ∀ m ∈ rows, m.timestamp = cg.readConsolidatedLockTimestamp locked oid) ∧
    (∀ (op : SplitOperation) (rows : List Mutation) (locked : List NodeId) (oid : Nat),
      EditEvent.bulkWrite rows locked oid ∈ (SplitOperation.apply cg op).1 →
      (∃ hierarchyRows, rows =
        logRow oid (cg.readConsolidatedLockTimestamp locked oid) :: hierarchyRows) ∧
      ∀ m ∈ rows, m.timestamp = cg.readConsolidatedLockTimestamp locked oid) ∧
    (∀ (op : MulticutOperation) (rows : List Mutation) (locked : List NodeId) (oid : Nat),
      EditEvent.bulkWrite rows locked oid ∈ (MulticutOperation.apply cg op).1 →
      (∃ hierarchyRows, rows =
        logRow oid (cg.readConsolidatedLockTimestamp locked oid) :: hierarchyRows) ∧
      ∀ m ∈ rows, m.timestamp = cg.readConsolidatedLockTimestamp locked oid) := by
  refine ⟨?_, ?_, ?_⟩
  · intro op rows locked oid hmem
    cases hL : cg.tryLock
        (npUnique ((op.addedEdges.flatMap (fun e => [e.1, e.2])).map cg.getRoot)) with
    | none => simp [MergeOperation.apply, hL] at hmem
    | some lock =>
      simp only [MergeOperation.apply, hL, add_edges, List.mem_cons, List.not_mem_nil,
        or_false, EditEvent.bulkWrite.injEq, reduceCtorEq, false_or] at hmem
      obtain ⟨hrows, hlocked, hoid⟩ := hmem
      subst hlocked
      subst hoid
      refine ⟨⟨_, hrows⟩, ?_⟩
      intro m hm
      rw [hrows] at hm
      rcases List.mem_cons.mp hm with rfl | hm
      · rfl
      · rcases List.mem_map.mp hm with ⟨k, _, rfl⟩
        rfl
  · intro op rows locked oid hmem
    by_cases hR : 1 < (npUnique (op.endpointIds.map cg.getRoot)).length
    · simp [SplitOperation.apply, hR] at hmem
    · cases hL : cg.tryLock (npUnique (op.endpointIds.map cg.getRoot)) with
      | none => simp [SplitOperation.apply, SplitOperation.applyLocked, hR, hL] at hmem
      | some lock =>
        simp only [SplitOperation.apply, SplitOperation.applyLocked, hR, if_false, hL,
          remove_edges, List.mem_cons, List.not_mem_nil, or_false,
          EditEvent.bulkWrite.injEq, reduceCtorEq, false_or, if_neg] at hmem
        obtain ⟨hrows, hlocked, hoid⟩ := hmem
        subst hlocked
        subst hoid
        refine ⟨⟨_, hrows⟩, ?_⟩
        intro m hm
        rw [hrows] at hm
        rcases List.mem_cons.mp hm with rfl | hm
        · rfl
        · rcases List.mem_map.mp hm with ⟨k, _, rfl⟩
          rfl
  · intro op rows locked oid hmem
    by_cases hR : 1 < (npUnique (op.endpointIds.map cg.getRoot)).length
    · simp [MulticutOperation.apply, hR] at hmem
    · cases hL : cg.tryLock (npUnique (op.endpointIds.map cg.getRoot)) with
      | none => simp [MulticutOperation.apply, MulticutOperation.applyLocked, hR, hL] at hmem
      | some lock =>
        cases hE : (cg.runMulticut op.sourceIds op.sinkIds op.sourceCoords op.sinkCoords
            op.bboxOffset).isEmpty with
        | true =>
          simp [MulticutOperation.apply, MulticutOperation.applyLocked, hR, hL, hE] at hmem
        | false =>
          simp only [MulticutOperation.apply, MulticutOperation.applyLocked, hR, if_false, hL,
            hE, Bool.false_eq_true, remove_edges, List.mem_cons, List.not_mem_nil,
            or_false, EditEvent.bulkWrite.injEq, reduceCtorEq, false_or] at hmem
          obtain ⟨hrows, hlocked, hoid⟩ := hmem
          subst hlocked
          subst hoid
          refine ⟨⟨_, hrows⟩, ?_⟩
          intro m hm
          rw [hrows] at hm
          rcases List.mem_cons.mp hm with rfl | hm
          · rfl
          · rcases List.mem_map.mp hm with ⟨k, _, rfl⟩
            rfl

def mergeOpW : MergeOperation :=
  { userId := "u", addedEdges := [(1, 2)], sourceCoords := none, sinkCoords := none,
    affinities := none }

/-- The mutation list that `MergeOperation.apply cgW mergeOpW` passes to
`bulk_write`: the log row for operation 7 at the consolidated timestamp 42,
then the two hierarchy mutations. -/
def rowsW : List Mutation :=
  [logRow 7 42,
   { rowKey := 10, isLog := false, timestamp := 42 },
   { rowKey := 11, isLog := false, timestamp := 42 }]

theorem edit_apply_log_row_first_and_stamped_witness :
    (∃ hierarchyRows, rowsW =
      logRow 7 (cgW.readConsolidatedLockTimestamp [100] 7) :: hierarchyRows) ∧
    ∀ m ∈ rowsW, m.timestamp = cgW.readConsolidatedLockTimestamp [100] 7 :=
  (edit_apply_log_row_first_and_stamped cgW).1 mergeOpW rowsW [100] 7 (by decide)

/-- A log record with `AddedEdge` present but `Affinity` absent, as
`MergeOperation.create_log_record` writes when the merge carried no
affinities (graphoperation.py:233-234 writes `Affinity` only when present). -/
def recNoAffinity : LogRecordData :=
  { userId := "u", sourceIds := [], sinkIds := [], sourceCoords := [], sinkCoords := [],
    addedEdge := some [(1, 2)], affinity := none, removedEdge := none,
    boundingBoxOffset := none }

/-- A log record whose added edge has equal endpoints, so the
`MergeOperation` constructor rejects it. -/
def recOverlap : LogRecordData :=
  { userId := "u", sourceIds := [], sinkIds := [], sourceCoords := [], sinkCoords := [],
    addedEdge := some [(1, 1)], affinity := some [0], removedEdge := none,
    boundingBoxOffset := none }

/-- C5 counterexample: two records that contain the `AddedEdge` column yet do
not decode to a `MergeOperation` — `from_log_record` reads the `Affinity`
column unconditionally inside the `AddedEdge` branch (graphoperation.py:82),
so a merge record without affinities raises `KeyError`, and the
`MergeOperation` constructor validation can raise `PreconditionError`. -/
theorem from_log_record_counterexample :
    (recNoAffinity.addedEdge.isSome = true ∧
      fromLogRecord cgW recNoAffinity true = .error .keyError) ∧
    (recOverlap.addedEdge.isSome = true ∧
      fromLogRecord cgW recOverlap true = .error (.preconditionError overlapMsg)) := by
  refine ⟨⟨rfl, rfl⟩, rfl, rfl⟩

/-- C5 (amended): for a log record whose merge branch has its `Affinity`
column and whose logged ids pass the constructor checks,
`from_log_record` returns a `MergeOperation` iff the record contains the
`AddedEdge` column; otherwise, with `RemovedEdge` present, it returns a
`SplitOperation` built from the logged removed edges when
`multicut_as_split` is true or `BoundingBoxOffset` is absent, and a
`MulticutOperation` carrying no removed edges (they are recomputed during
`apply`; the logged ones are discarded) otherwise; with neither column it
raises `PreconditionError`. -/
theorem from_log_record_decoder (cg : ChunkedGraph) (rec : LogRecordData) (mas : Bool)
    (hma : ∀ ae, rec.addedEdge = some ae →
      rec.affinity.isSome = true ∧
      graphEditValidate cg (some (ae.map Prod.fst)) (some (ae.map Prod.snd)) = .ok ())
    (hsv : ∀ re, rec.removedEdge = some re →
      graphEditValidate cg (some (re.map Prod.fst)) (some (re.map Prod.snd)) = .ok ())
    (hmv : graphEditValidate cg (some rec.sourceIds) (some rec.sinkIds) = .ok ()) :
    ((∃ m, fromLogRecord cg rec mas = .ok (.merge m)) ↔ rec.addedEdge.isSome = true) ∧
    (∀ re, rec.addedEdge = none → rec.removedEdge = some re →
      ((mas = true ∨ rec.boundingBoxOffset = none) →
        fromLogRecord cg rec mas = .ok (.split
          { userId := rec.userId, removedEdges := re,
            sourceCoords := some rec.sourceCoords, sinkCoords := some rec.sinkCoords })) ∧
      (mas = false → ∀ bb, rec.boundingBoxOffset = some bb →
        fromLogRecord cg rec mas = .ok (.multicut
          { userId := rec.userId, sourceIds := rec.sourceIds, sinkIds := rec.sinkIds,
            sourceCoords := rec.sourceCoords, sinkCoords := rec.sinkCoords,
            bboxOffset := some bb, removedEdges := none }))) ∧
    (rec.addedEdge = none → rec.removedEdge = none →
      fromLogRecord cg rec mas = .error (.preconditionError noEdgesMsg)) := by
  refine ⟨?_, ?_, ?_⟩
  · constructor
    · rintro ⟨m, hm⟩
      cases hae : rec.addedEdge with
      | some ae => rfl
      | none =>
        exfalso
        cases hre : rec.removedEdge with
        | none => simp [fromLogRecord, hae, hre] at hm
        | some re =>
          by_cases hb : (mas || rec.boundingBoxOffset.isNone) = true
          · simp [fromLogRecord, hae, hre, hb, SplitOperation.create, hsv re hre,
              Except.map] at hm
          · simp [fromLogRecord, hae, hre, hb, MulticutOperation.create, hmv,
              Except.map] at hm
    · intro hae
      cases ha : rec.addedEdge with
      | none => rw [ha] at hae; cases hae
      | some ae =>
        obtain ⟨haff, hvalid⟩ := hma ae ha
        cases haf : rec.affinity with
        | none => rw [haf] at haff; cases haff
        | some aff =>
          refine ⟨⟨rec.userId, ae, some rec.sourceCoords, some rec.sinkCoords, some aff⟩, ?_⟩
          simp [fromLogRecord, ha, haf, MergeOperation.create, hvalid, Except.map]
  · intro re hae hre
    constructor
    · intro hb
      have hb' : (mas || rec.boundingBoxOffset.isNone) = true := by
        rcases hb with rfl | hb
        · simp
        · simp [hb]
      simp [fromLogRecord, hae, hre, hb', SplitOperation.create, hsv re hre]
      rfl
    · intro hmas bb hbb
      have hb' : (mas || rec.boundingBoxOffset.isNone) = false := by
        simp [hmas, hbb]
      simp [fromLogRecord, hae, hre, hmas, hb', hbb, MulticutOperation.create, hmv]
      rfl
  · intro hae hre
    simp [fromLogRecord, hae, hre]

/-- A well-formed merge log record for the witness. -/
def recMergeOk : LogRecordData :=
  { userId := "u", sourceIds := [], sinkIds := [], sourceCoords := [], sinkCoords := [],
    addedEdge := some [(1, 2)], affinity := some [3], removedEdge := none,
    boundingBoxOffset := none }

theorem from_log_record_decoder_witness :
    ∃ m, fromLogRecord cgW recMergeOk true = .ok (.merge m) := by
  have h := from_log_record_decoder cgW recMergeOk true
    (by
      intro ae hae
      injection hae with h1
      subst h1
      exact ⟨rfl, rfl⟩)
    (by
      intro re hre
      exact Option.noConfusion hre)
    rfl
  exact h.1.mpr rfl

/-! ## Claims about `common.py` and `app_utils.py` -/

theorem chunkDeltaExceeds_iff (c0 c1 : Coord) :
    chunkDeltaExceeds c0 c1 = true ↔ 3 < chebyshevDist c0 c1 := by
  simp [chunkDeltaExceeds, chebyshevDist, lt_max_iff, or_assoc]

/-- Supporting result for C3: the merge body downstream of the dead `get_cg`
call rejects the request with `BadRequest` — with no events emitted, so no
rows are written — whenever the chunk coordinates of the two looked-up
endpoint supervoxels differ by more than 3 in some axis (Chebyshev distance
above 3 chunks); within distance 3 the guard passes and the body proceeds to
the edit. -/
theorem handleMergeBody_chebyshev_guard (cg : AppGraph) (exchange tableId userId : String)
    (node0 node1 : NodeId × Coord) (isPriority allowSameSegmentMerge : Bool) :
    (3 < chebyshevDist (cg.getChunkCoordinates (cg.svLookup node0.2 node0.1))
        (cg.getChunkCoordinates (cg.svLookup node1.2 node1.1)) →
      handleMergeBody cg exchange tableId userId node0 node1 isPriority allowSameSegmentMerge =
        ([], .error (.badRequest chebyshevMsg))) ∧
    (chebyshevDist (cg.getChunkCoordinates (cg.svLookup node0.2 node0.1))
        (cg.getChunkCoordinates (cg.svLookup node1.2 node1.1)) ≤ 3 →
      handleMergeBody cg exchange tableId userId node0 node1 isPriority allowSameSegmentMerge =
        mergeAfterDistanceCheck cg exchange tableId userId (cg.svLookup node0.2 node0.1)
          (cg.svLookup node1.2 node1.1) isPriority allowSameSegmentMerge) := by
  constructor
  · intro h
    have hc := (chunkDeltaExceeds_iff (cg.getChunkCoordinates (cg.svLookup node0.2 node0.1))
      (cg.getChunkCoordinates (cg.svLookup node1.2 node1.1))).mpr h
    simp [handleMergeBody, hc]
  · intro h
    cases hc : chunkDeltaExceeds (cg.getChunkCoordinates (cg.svLookup node0.2 node0.1))
        (cg.getChunkCoordinates (cg.svLookup node1.2 node1.1)) with
    | false => simp [handleMergeBody, hc]
    | true =>
      exact absurd ((chunkDeltaExceeds_iff _ _).mp hc) (Nat.not_lt.mpr h)

/-- A concrete app graph handle for witnesses: the lookup returns the hint id,
chunk coordinates place supervoxel `n` at x-chunk `n`, and every edit entry
point succeeds. -/
def appW : AppGraph where
  svLookup := fun _ n => n
  getChunkCoordinates := fun n => (Int.ofNat n, 0, 0)
  addEdges := fun _ _ _ => .ok { newRootIds := some [500], newLvl2Ids := [600] }
  removeEdges := fun _ _ _ _ => .ok { newRootIds := some [501, 502], newLvl2Ids := [601] }
  undoOperation := fun _ _ => .ok { newRootIds := some [503], newLvl2Ids := [602] }
  redoOperation := fun _ _ => .ok { newRootIds := some [504], newLvl2Ids := [603] }
  logEntries :=
    [(1, { userId := "alice", timestamp := 10, status := none, undoOperationId := none,
           redoOperationId := none }),
     (2, { userId := "bob", timestamp := 20, status := none, undoOperationId := some 1,
           redoOperationId := none }),
     (3, { userId := "bob", timestamp := 30, status := none, undoOperationId := none,
           redoOperationId := some 1 })]

theorem handleMergeBody_chebyshev_guard_instance :
    handleMergeBody appW "ex" "t" "u" (0, (0, 0, 0)) (10, (0, 0, 0)) true false =
      ([], .error (.badRequest chebyshevMsg)) ∧
    handleMergeBody appW "ex" "t" "u" (0, (0, 0, 0)) (2, (0, 0, 0)) true false =
      mergeAfterDistanceCheck appW "ex" "t" "u" 0 2 true false := by
  constructor
  · exact (handleMergeBody_chebyshev_guard appW "ex" "t" "u" (0, (0, 0, 0)) (10, (0, 0, 0))
      true false).1 (by decide)
  · exact (handleMergeBody_chebyshev_guard appW "ex" "t" "u" (0, (0, 0, 0)) (2, (0, 0, 0))
      true false).2 (by decide)

/-- C3: the claim fails on the code. `handle_merge` calls
`app_utils.get_cg(table_id, skip_cache=True)` (common.py:366), whose keyword
argument does not bind to `get_cg`'s signature (app_utils.py:77), so every
merge request — beyond or within the 3-chunk limit — raises `TypeError`
before the supervoxel lookup and the Chebyshev guard: no request is rejected
with `BadRequest` for distance and none passes the check. The guard itself,
downstream of the dead call, implements the claim exactly
(`handleMergeBody_chebyshev_guard`). -/
theorem handle_merge_type_error_preempts_guard (cg : AppGraph)
    (exchange tableId userId : String) (node0 node1 : NodeId × Coord)
    (isPriority allowSameSegmentMerge : Bool) :
    handle_merge cg exchange tableId userId node0 node1 isPriority allowSameSegmentMerge =
      ([], .error .typeError) := rfl

/-- Supporting result for C6: downstream of the dead `get_cg` calls, the
merge and split bodies publish `(table_id, new_lvl2_ids as a contiguous
uint64 byte buffer)` after a committed edit with new level-2 ids and still
return the edit result. -/
theorem body_publish_new_lvl2_ids (cg : AppGraph) (exchange tableId userId : String) :
    (∀ (node0 node1 : NodeId × Coord) (isPriority allowSameSegmentMerge : Bool)
        (ret : OperationResult) (roots : List NodeId),
      chunkDeltaExceeds (cg.getChunkCoordinates (cg.svLookup node0.2 node0.1))
          (cg.getChunkCoordinates (cg.svLookup node1.2 node1.1)) = false →
      cg.addEdges userId (cg.svLookup node0.2 node0.1, cg.svLookup node1.2 node1.1)
          allowSameSegmentMerge = .ok ret →
      ret.newRootIds = some roots → ret.newLvl2Ids ≠ [] →
      handleMergeBody cg exchange tableId userId node0 node1 isPriority allowSameSegmentMerge =
        ([AppEvent.published exchange tableId (payloadBytes ret.newLvl2Ids)], .ok ret)) ∧
    (∀ (sources sinks : List (NodeId × Coord)) (isPriority mincut : Bool)
        (ret : OperationResult) (roots : List NodeId),
      cg.removeEdges userId (sources.map (fun p => cg.svLookup p.2 p.1))
          (sinks.map (fun p => cg.svLookup p.2 p.1)) mincut = .ok ret →
      ret.newRootIds = some roots → ret.newLvl2Ids ≠ [] →
      handleSplitBody cg exchange tableId userId sources sinks isPriority mincut =
        ([AppEvent.published exchange tableId (payloadBytes ret.newLvl2Ids)], .ok ret)) := by
  refine ⟨?_, ?_⟩
  · intro node0 node1 isPriority allowSameSegmentMerge ret roots hdist hadd hroots hne
    have hl : 0 < ret.newLvl2Ids.length := List.length_pos.mpr hne
    simp [handleMergeBody, mergeAfterDistanceCheck, hdist, hadd, hroots, hl, publish_edit]
  · intro sources sinks isPriority mincut ret roots hrem hroots hne
    have hl : 0 < ret.newLvl2Ids.length := List.length_pos.mpr hne
    simp [handleSplitBody, hrem, hroots, hl, publish_edit]

theorem body_publish_new_lvl2_ids_instance :
    handleMergeBody appW "ex" "t" "u" (0, (0, 0, 0)) (1, (0, 0, 0)) true false =
      ([AppEvent.published "ex" "t" (payloadBytes [600])],
       .ok { newRootIds := some [500], newLvl2Ids := [600] }) ∧
    handleSplitBody appW "ex" "t" "u" [(0, (0, 0, 0))] [(1, (0, 0, 0))] true true =
      ([AppEvent.published "ex" "t" (payloadBytes [601])],
       .ok { newRootIds := some [501, 502], newLvl2Ids := [601] }) := by
  have h := body_publish_new_lvl2_ids appW "ex" "t" "u"
  exact ⟨h.1 (0, (0, 0, 0)) (1, (0, 0, 0)) true false _ [500] (by decide) rfl rfl (by decide),
    h.2 [(0, (0, 0, 0))] [(1, (0, 0, 0))] true true _ [501, 502] rfl rfl (by decide)⟩

/-- C6: the claim fails on the code for merge and split. `handle_undo` and
`handle_redo` behave as claimed: a committed undo or redo with new level-2
ids publishes `(table_id, new_lvl2_ids as a contiguous uint64 byte buffer)`
to the configured exchange after the edit and still returns the edit result
(the publish is modelled from the spec as a fire-and-forget event whose
delivery failures cannot fail the edit). `handle_merge` and `handle_split`,
however, raise `TypeError` at the `get_cg` call before any edit, so no merge
or split ever commits or publishes through them; their publish code is dead
(`body_publish_new_lvl2_ids`). -/
theorem edit_publish_behavior (cg : AppGraph) (exchange tableId userId : String) :
    (∀ (node0 node1 : NodeId × Coord) (isPriority allowSameSegmentMerge : Bool),
      handle_merge cg exchange tableId userId node0 node1 isPriority allowSameSegmentMerge =
        ([], .error .typeError)) ∧
    (∀ (sources sinks : List (NodeId × Coord)) (isPriority mincut : Bool),
      handle_split cg exchange tableId userId sources sinks isPriority mincut =
        ([], .error .typeError)) ∧
    (∀ (operationId : Nat) (isPriority : Bool) (ret : OperationResult),
      cg.undoOperation userId operationId = .ok ret → ret.newLvl2Ids ≠ [] →
      handle_undo cg exchange tableId userId operationId isPriority =
        ([AppEvent.undoApplied userId operationId,
          AppEvent.published exchange tableId (payloadBytes ret.newLvl2Ids)], .ok ret)) ∧
    (∀ (operationId : Nat) (isPriority : Bool) (ret : OperationResult),
      cg.redoOperation userId operationId = .ok ret → ret.newLvl2Ids ≠ [] →
      handle_redo cg exchange tableId userId operationId isPriority =
        ([AppEvent.redoApplied userId operationId,
          AppEvent.published exchange tableId (payloadBytes ret.newLvl2Ids)], .ok ret)) := by
  refine ⟨fun _ _ _ _ => rfl, fun _ _ _ _ => rfl, ?_, ?_⟩
  · intro operationId isPriority ret hundo hne
    have hl : 0 < ret.newLvl2Ids.length := List.length_pos.mpr hne
    simp [handle_undo, hundo, hl, publish_edit]
  · intro operationId isPriority ret hredo hne
    have hl : 0 < ret.newLvl2Ids.length := List.length_pos.mpr hne
    simp [handle_redo, hredo, hl, publish_edit]

theorem edit_publish_behavior_witness :
    handle_merge appW "ex" "t" "u" (0, (0, 0, 0)) (1, (0, 0, 0)) true false =
      ([], .error .typeError) ∧
    handle_split appW "ex" "t" "u" [(0, (0, 0, 0))] [(1, (0, 0, 0))] true true =
      ([], .error .typeError) ∧
    handle_undo appW "ex" "t" "u" 1 true =
      ([AppEvent.undoApplied "u" 1, AppEvent.published "ex" "t" (payloadBytes [602])],
       .ok { newRootIds := some [503], newLvl2Ids := [602] }) ∧
    handle_redo appW "ex" "t" "u" 1 true =
      ([AppEvent.redoApplied "u" 1, AppEvent.published "ex" "t" (payloadBytes [603])],
       .ok { newRootIds := some [504], newLvl2Ids := [603] }) := by
  have h := edit_publish_behavior appW "ex" "t" "u"
  exact ⟨h.1 (0, (0, 0, 0)) (1, (0, 0, 0)) true false,
    h.2.1 [(0, (0, 0, 0))] [(1, (0, 0, 0))] true true,
    h.2.2.1 1 true _ rfl (by decide),
    h.2.2.2 1 true _ rfl (by decide)⟩

/-- C7: with `include_undone` false, `all_user_operations` returns exactly the
log operations authored by the requested user that are not themselves undo or
redo records and that are not effectively undone. The effectively-undone set
`undoneIds` replays the undo/redo back-pointers of successful log entries in
id order — which is timestamp order under the stated monotonicity of the
store's operation-id allocator (`hts`): an undo marks its target undone, a
later redo of that target unmarks it. -/
theorem all_user_operations_effective (log : List (Nat × LogEntry)) (targetUserId : String)
    (hts : List.Sorted (fun a b => a.2.timestamp ≤ b.2.timestamp) (sortById log))
    (opId ts : Nat) :
    (opId, ts) ∈ all_user_operations log targetUserId false ↔
      ∃ e : LogEntry, (opId, e) ∈ log ∧ e.userId = targetUserId ∧ e.timestamp = ts ∧
        e.undoOperationId = none ∧ e.redoOperationId = none ∧ opId ∉ undoneIds log := by
  simp only [all_user_operations, validEntries, sortById, Bool.false_eq_true, if_false,
    List.mem_map, List.mem_filter, List.mem_insertionSort, Bool.and_eq_true,
    Option.isNone_iff_eq_none, beq_iff_eq, Prod.mk.injEq]
  constructor
  · rintro ⟨⟨i, e⟩, ⟨⟨hmem, huser⟩, ⟨hundo, hredo⟩, hcont⟩, hid, hts'⟩
    subst hid
    refine ⟨e, hmem, huser, hts', hundo, hredo, ?_⟩
    simpa [List.contains] using hcont
  · rintro ⟨e, hmem, huser, hts', hundo, hredo, hcont⟩
    refine ⟨(opId, e), ⟨⟨hmem, huser⟩, ⟨hundo, hredo⟩, ?_⟩, rfl, hts'⟩
    simpa [List.contains] using hcont

theorem all_user_operations_effective_witness :
    (1, 10) ∈ all_user_operations appW.logEntries "alice" false ↔
      ∃ e : LogEntry, (1, e) ∈ appW.logEntries ∧ e.userId = "alice" ∧ e.timestamp = 10 ∧
        e.undoOperationId = none ∧ e.redoOperationId = none ∧
        1 ∉ undoneIds appW.logEntries :=
  all_user_operations_effective appW.logEntries "alice" (by decide) 1 10

instance : IsTotal (Nat × Nat) (fun a b => b.2 ≤ a.2) :=
  ⟨fun a b => Nat.le_total b.2 a.2⟩

instance : IsTrans (Nat × Nat) (fun a b => b.2 ≤ a.2) :=
  ⟨fun _ _ _ h1 h2 => Nat.le_trans h2 h1⟩

/-- The events one rollback step emits for an operation that undoes
successfully: the undo invocation, then a publish when the undo produced new
level-2 ids. -/
def rollbackStepEvents (cg : AppGraph) (exchange tableId targetUserId : String)
    (isPriority : Bool) (opId : Nat) : List AppEvent :=
  AppEvent.undoApplied targetUserId opId ::
    match cg.undoOperation targetUserId opId with
    | .ok ret =>
      if 0 < ret.newLvl2Ids.length then
        [publish_edit exchange tableId ret.newLvl2Ids isPriority]
      else []
    | .error _ => []

theorem rollbackLoop_all_ok (cg : AppGraph) (exchange tableId targetUserId : String)
    (isPriority : Bool) :
    ∀ ops : List (Nat × Nat),
      (∀ p ∈ ops, ∃ ret, cg.undoOperation targetUserId p.1 = .ok ret) →
      rollbackLoop cg exchange tableId targetUserId isPriority ops =
        (ops.flatMap
          (fun p => rollbackStepEvents cg exchange tableId targetUserId isPriority p.1),
         none) := by
  intro ops
  induction ops with
  | nil =>
    intro _
    simp [rollbackLoop]
  | cons p rest ih =>
    intro h
    obtain ⟨opId, t⟩ := p
    obtain ⟨ret, hret⟩ := h (opId, t) (List.mem_cons_self _ _)
    have hrest := ih (fun q hq => h q (List.mem_cons_of_mem _ hq))
    simp [rollbackLoop, hret, hrest, rollbackStepEvents]

/-- C8: `handle_rollback` applies an undo for every still-effective operation
of the target user, processing them in descending timestamp order (the sorted
list is descending and a permutation of the user's operation list), publishes
the new level-2 ids of each undo, and returns the user's operation list.
`is_priority`, undefined in the source's scope, is threaded through as a
parameter per the spec's note. -/
theorem handle_rollback_undoes_each_effective (cg : AppGraph)
    (exchange tableId targetUserId : String) (isPriority : Bool)
    (hok : ∀ p ∈ sortByTimestampDesc (all_user_operations cg.logEntries targetUserId false),
      ∃ ret, cg.undoOperation targetUserId p.1 = .ok ret) :
    handle_rollback cg exchange tableId targetUserId isPriority =
      ((sortByTimestampDesc (all_user_operations cg.logEntries targetUserId false)).flatMap
        (fun p => rollbackStepEvents cg exchange tableId targetUserId isPriority p.1),
       .ok (all_user_operations cg.logEntries targetUserId false)) ∧
    List.Sorted (fun a b => b.2 ≤ a.2)
      (sortByTimestampDesc (all_user_operations cg.logEntries targetUserId false)) ∧
    (sortByTimestampDesc (all_user_operations cg.logEntries targetUserId false)).Perm
      (all_user_operations cg.logEntries targetUserId false) := by
  refine ⟨?_, ?_, ?_⟩
  · have h := rollbackLoop_all_ok cg exchange tableId targetUserId isPriority
      (sortByTimestampDesc (all_user_operations cg.logEntries targetUserId false)) hok
    simp [handle_rollback, h]
  · simpa [sortByTimestampDesc] using
      List.sorted_insertionSort (fun a b : Nat × Nat => b.2 ≤ a.2)
        (all_user_operations cg.logEntries targetUserId false)
  · simpa [sortByTimestampDesc] using
      List.perm_insertionSort (fun a b : Nat × Nat => b.2 ≤ a.2)
        (all_user_operations cg.logEntries targetUserId false)

theorem handle_rollback_undoes_each_effective_witness :
    handle_rollback appW "ex" "t" "alice" true =
      ((sortByTimestampDesc (all_user_operations appW.logEntries "alice" false)).flatMap
        (fun p => rollbackStepEvents appW "ex" "t" "alice" true p.1),
       .ok (all_user_operations appW.logEntries "alice" false)) ∧
    List.Sorted (fun a b => b.2 ≤ a.2)
      (sortByTimestampDesc (all_user_operations appW.logEntries "alice" false)) ∧
    (sortByTimestampDesc (all_user_operations appW.logEntries "alice" false)).Perm
      (all_user_operations appW.logEntries "alice" false) :=
  handle_rollback_undoes_each_effective appW "ex" "t" "alice" true
    (fun _ _ => ⟨_, rfl⟩)

/-- C9: the claim fails on the code. `handle_merge` (common.py:366) and
`handle_split` (common.py:427) call `app_utils.get_cg(table_id,
skip_cache=True)`, but `get_cg` (app_utils.py:77) accepts only `table_id`, so
the keyword argument does not bind and every such call raises `TypeError`
before a graph handle is obtained. -/
theorem get_cg_calls_do_not_bind :
    callBindsOk getCgSignatureParams handleMergeGetCgCall = false ∧
    callBindsOk getCgSignatureParams handleSplitGetCgCall = false := by
  constructor <;> rfl

end PyChunkedGraph
